import Mathlib

/-!
Verification development for the tb-api-backend telemetry engine.

Shallow embedding of the pure logic of `pack_format.py`, `alarm_logic.py`,
`calculated_telemetry.py` and `lift-simulator/live_counters.py`.
Python floats are modelled as rationals (all arithmetic the claims touch is
exact decimal arithmetic); wall-clock reads (`time.time()`) become explicit
arguments; the module-level per-device dictionaries are modelled either as
explicit association lists or, for the per-device door/motion/bucket maps,
as the state of one fixed device (entries of distinct devices are
independent).  Numeric string parsing models the subset of Python
`int()` / `float()` syntax that the device wire format uses (optional sign,
decimal digits, optional fraction part); `NaN`/`inf` are rejected by the
source itself, matching the parser returning `none`.
-/

namespace TbApi

/-! ## Python string primitives -/

/-- `str.split(sep)` for a one-character separator, Python semantics:
the empty string yields `[""]`, separators at the ends yield empty parts. -/
def splitChar (c : Char) : List Char → List (List Char)
  | [] => [[]]
  | x :: xs =>
    match splitChar c xs with
    | [] => [[]]
    | g :: gs => if x = c then [] :: g :: gs else (x :: g) :: gs

def pySplit (c : Char) (s : String) : List String :=
  (splitChar c s.toList).map List.asString

/-- `str.strip()` (whitespace on both ends). -/
def trimChars (l : List Char) : List Char :=
  ((l.dropWhile Char.isWhitespace).reverse.dropWhile Char.isWhitespace).reverse

def pyStrip (s : String) : String := (trimChars s.toList).asString

/-- `str.upper()` (ASCII field values only). -/
def pyUpper (s : String) : String := (s.toList.map Char.toUpper).asString

/-- Nonempty all-digit test: `str.isdigit()`. -/
def pyIsdigitL (l : List Char) : Bool := !l.isEmpty && l.all Char.isDigit

def pyIsdigit (s : String) : Bool := pyIsdigitL s.toList

def digitsVal (l : List Char) : ℕ :=
  l.foldl (fun n c => 10 * n + (c.toNat - '0'.toNat)) 0

/-- `int(s)` on an already-stripped string: optional sign then digits. -/
def pyIntOfChars : List Char → Option ℤ
  | [] => none
  | '-' :: rest => if pyIsdigitL rest then some (-(digitsVal rest : ℤ)) else none
  | '+' :: rest => if pyIsdigitL rest then some ((digitsVal rest : ℤ)) else none
  | l => if pyIsdigitL l then some ((digitsVal l : ℤ)) else none

def pyInt? (s : String) : Option ℤ := pyIntOfChars s.toList

/-- Unsigned part of `float(s)`: digits, optional `.` and fraction digits. -/
def pyFloatMag (l : List Char) : Option ℚ :=
  let ip := l.takeWhile Char.isDigit
  let rest := l.drop ip.length
  match rest with
  | [] => if ip.isEmpty then none else some ((digitsVal ip : ℚ))
  | '.' :: fp =>
    if fp.all Char.isDigit && !(ip.isEmpty && fp.isEmpty) then
      some ((digitsVal ip : ℚ) + (digitsVal fp : ℚ) / (10 : ℚ) ^ fp.length)
    else none
  | _ => none

/-- `float(s)` on an already-stripped string (finite decimal subset;
`_to_float` in the source additionally rejects `nan`/`inf`, which this
parser never produces). -/
def pyFloatOfChars : List Char → Option ℚ
  | '-' :: rest => (pyFloatMag rest).map (fun q => -q)
  | '+' :: rest => pyFloatMag rest
  | l => pyFloatMag l

def pyFloat? (s : String) : Option ℚ := pyFloatOfChars s.toList

/-- `int(q)` for a float argument: truncation toward zero. -/
def pyTrunc (q : ℚ) : ℤ := if 0 ≤ q then ⌊q⌋ else ⌈q⌉

/-- Python `round(x)`: round half to even. -/
def halfEvenRound (x : ℚ) : ℤ :=
  let f := ⌊x⌋
  let r := x - (f : ℚ)
  if r < 1 / 2 then f
  else if 1 / 2 < r then f + 1
  else if Even f then f else f + 1

/-- Python `round(x, 1)`. -/
def pyRound1 (x : ℚ) : ℚ := (halfEvenRound (10 * x) : ℚ) / 10

/-! ## Pack codec (`pack_format.py`) -/

/-- A parsed pack value: Python `int`, `float`, `str` or `None`. -/
inductive PackValue
  | int (n : ℤ)
  | float (q : ℚ)
  | str (s : String)
  | null
deriving DecidableEq

/-- `DEFAULT_INT_KEYS`. -/
def INT_KEYS : List String := ["v", "ts", "fi", "door", "home_floor"]

/-- `DEFAULT_FLOAT_KEYS`. -/
def FLOAT_KEYS : List String :=
  ["h", "laser_val", "height_raw",
   "accel_x_val", "accel_y_val", "accel_z_val",
   "gyro_x_val", "gyro_y_val", "gyro_z_val",
   "mpu_temp_val", "humidity_val", "mic_val",
   "x_vibe", "y_vibe", "z_vibe",
   "x_jerk", "y_jerk", "z_jerk",
   "temperature", "humidity", "sound_level",
   "vel"]

/-- `_coerce_value`: empty value is `None`; known int keys try `int`, known
float keys try `float`, falling back to the raw string; unknown keys stay
strings. -/
def coerce_value (k v : String) : PackValue :=
  if v = "" then PackValue.null
  else if k ∈ INT_KEYS then
    match pyInt? v with
    | some n => PackValue.int n
    | none => PackValue.str v
  else if k ∈ FLOAT_KEYS then
    match pyFloat? v with
    | some q => PackValue.float q
    | none => PackValue.str v
  else PackValue.str v

/-- One loop iteration of `parse_pack_raw`: split a segment at the first
`=`, strip key and value, drop the segment when there is no `=` or the
key is empty. -/
def segKV (pair : String) : Option (String × String) :=
  let cs := pair.toList
  let kpart := cs.takeWhile (fun c => c ≠ '=')
  if kpart.length = cs.length then none
  else
    let key := (trimChars kpart).asString
    let v := (trimChars (cs.drop (kpart.length + 1))).asString
    if key = "" then none else some (key, v)

/-- Python dict assignment `out[k] = v` on an insertion-ordered dict. -/
def dictInsert (k : String) (v : PackValue) :
    List (String × PackValue) → List (String × PackValue)
  | [] => [(k, v)]
  | (k', v') :: rest => if k' = k then (k, v) :: rest else (k', v') :: dictInsert k v rest

/-- Python dict lookup (first — hence unique — binding of the key). -/
def assocGet {α : Type} (k : String) : List (String × α) → Option α
  | [] => none
  | (k', v) :: rest => if k' = k then some v else assocGet k rest

def parseSegStep (out : List (String × PackValue)) (pair : String) :
    List (String × PackValue) :=
  match segKV pair with
  | none => out
  | some (k, v) => dictInsert k (coerce_value k v) out

def parseSegs (segs : List String) : List (String × PackValue) :=
  segs.foldl parseSegStep []

/-- `parse_pack_raw` (default arguments: no extra keys, no lowercasing). -/
def parse_pack_raw (s : String) : List (String × PackValue) :=
  if s = "" then [] else parseSegs (pySplit '|' s)

/-- `get_float(parsed, key, default)`. -/
def get_float (parsed : List (String × PackValue)) (key : String)
    (dflt : Option ℚ) : Option ℚ :=
  match assocGet key parsed with
  | some (PackValue.int n) => some ((n : ℚ))
  | some (PackValue.float q) => some q
  | some (PackValue.str s) =>
    match pyFloat? s with
    | some q => some q
    | none => dflt
  | some PackValue.null => dflt
  | none => dflt

/-- `door_to_bit`. -/
def door_to_bit (val : Option PackValue) : Option ℤ :=
  match val with
  | some (PackValue.str s) =>
    let d := pyUpper (pyStrip s)
    if d = "OPEN" then some 1
    else if d = "CLOSED" ∨ d = "CLOSE" then some 0
    else
      match pyInt? d with
      | some n => some (if n ≠ 0 then 1 else 0)
      | none => none
  | some (PackValue.int n) => some (if n ≠ 0 then 1 else 0)
  | some (PackValue.float q) => some (if pyTrunc q ≠ 0 then 1 else 0)
  | some PackValue.null => none
  | none => none

/-- Left-biased choice on `Option` (refinement helper). -/
def optOr {α : Type} : Option α → Option α → Option α
  | some a, _ => some a
  | none, b => b

/-- Specification-side reading of the parse contract, written from the
spec's words: among the segments that are kept (those `segKV` accepts —
it drops segments with no `=` or an empty key), the LAST occurrence of a
key wins, and its stripped value is coerced (an empty value becoming
null).  Compared against `parse_pack_raw` in claim C8. -/
def lastKeptValue : List String → String → Option PackValue
  | [], _ => none
  | pair :: rest, k =>
    match segKV pair with
    | some kv =>
      match lastKeptValue rest k with
      | some w => some w
      | none => if kv.1 = k then some (coerce_value kv.1 kv.2) else none
    | none => lastKeptValue rest k

/-! ## Thresholds and constants (`alarm_logic.py`) -/

def DOOR_OPEN_THRESHOLD_SEC : ℚ := 15

def TOLERANCE_MM : ℚ := 10

def BUCKET_HALF_MM : ℚ := 50

def MOVEMENT_DEADBAND_MM : ℚ := 20

/-! ## Floor model (`_get_floor_meta`, `_compute_height`, `_floor_index`) -/

/-- The 7-point default ladder substituted when no boundaries were parsed. -/
def DEFAULT_BOUNDARIES : List ℤ := [0, 3000, 6000, 9000, 12000, 15000, 18000]

/-- The boundary-parsing list comprehension of `_get_floor_meta`:
`[int(x.strip()) for x in fb_raw.split(",") if x.strip().lstrip("-").isdigit()]`
applied when the fetched `floor_boundaries` attribute is a string
(`none` models the attribute being absent or non-string).  A `ValueError`
inside the comprehension (only possible with repeated minus signs) is
caught by the surrounding handler, leaving `boundaries` at its initial
`[]`, which the `Option.mapM` failure case reproduces. -/
def parse_floor_boundaries : Option String → List ℤ
  | none => []
  | some raw =>
    let kept := ((pySplit ',' raw).map pyStrip).filter
      (fun s => pyIsdigit ((s.toList.dropWhile (fun c => c = '-')).asString))
    match kept.mapM pyInt? with
    | some l => l
    | none => []

/-- The boundary part of `_get_floor_meta` after fetching attributes:
`if not boundaries: boundaries = [0, 3000, ..., 18000]`. -/
def resolve_boundaries (fb_raw : Option String) : List ℤ :=
  let b := parse_floor_boundaries fb_raw
  if b = [] then DEFAULT_BOUNDARIES else b

/-- `_compute_height`: prefer `h`; else `max(0, boundaries[-1] - laser_val)`
when a laser reading and a nonempty boundary list are present; else
`height_raw`; else `0`. -/
def compute_height (parsed : List (String × PackValue)) (boundaries : List ℤ) : ℚ :=
  match get_float parsed "h" none with
  | some h => h
  | none =>
    match get_float parsed "laser_val" none, boundaries.getLast? with
    | some laser, some max_b => max 0 ((max_b : ℚ) - laser)
    | _, _ =>
      match get_float parsed "height_raw" none with
      | some hr => hr
      | none => 0

/-- The scanning loop of `_floor_index`: first `i` with
`boundaries[i] <= h < boundaries[i+1]`, walking consecutive pairs. -/
def floorScan (h : ℚ) : List ℤ → Option ℕ
  | a :: b :: rest =>
    if (a : ℚ) ≤ h ∧ h < (b : ℚ) then some 0
    else (floorScan h (b :: rest)).map (· + 1)
  | _ => none

/-- `_floor_index` (identical in `alarm_logic.py` and
`calculated_telemetry.py`). -/
def floor_index (h : ℚ) (boundaries : List ℤ) : ℕ :=
  if boundaries.length < 2 then 0
  else (floorScan h boundaries).getD (boundaries.length - 2)

/-! ## Motion tracker (`_derive_motion`) -/

/-- `_derive_motion` for one device: the stored `_movement_state[device]`
is its `prev_h` entry (`none` when the device was never seen; the stored
`last_ts` wall-clock field is written but never read anywhere in the
repository, so it is omitted).  Returns `((direction, status, velocity),
new prev_h)`; the state update is unconditional. -/
def derive_motion (prev_h : Option ℚ) (h : ℚ) : (String × String × ℚ) × Option ℚ :=
  match prev_h with
  | none => (("S", "I", 0), some h)
  | some p =>
    let vel := h - p
    if MOVEMENT_DEADBAND_MM < vel then (("U", "M", vel), some h)
    else if vel < -MOVEMENT_DEADBAND_MM then (("D", "M", vel), some h)
    else (("S", "I", vel), some h)

/-! ## Vibration buckets (`_bucket_check_and_trigger`) -/

/-- One entry of `_bucket_counts[device][metric]`. -/
structure Bucket where
  center : ℚ
  count : ℤ
deriving DecidableEq

/-- `_bucket_check_and_trigger` for one device and metric (the per-device,
per-metric lists in `_bucket_counts` are independent).  First bucket with
`|center - h| <= BUCKET_HALF_MM` wins: its count is incremented and, at
count >= 3, the alarm fires and the bucket is removed; an unmatched sample
appends a fresh bucket with count 1.  Returns (new buckets, alarm fired). -/
def bucket_check : List Bucket → ℚ → List Bucket × Bool
  | [], h => ([⟨h, 1⟩], false)
  | b :: rest, h =>
    if |b.center - h| ≤ BUCKET_HALF_MM then
      if 3 ≤ b.count + 1 then (rest, true)
      else ({ center := b.center, count := b.count + 1 } :: rest, false)
    else
      let r := bucket_check rest h
      (b :: r.1, r.2)

/-- The stored bucket list after feeding a sequence of qualifying sample
heights, starting from the empty state of a fresh device/metric. -/
def bucket_run (hs : List ℚ) : List Bucket :=
  hs.foldl (fun st h => (bucket_check st h).1) []

/-! ## Door timer (`_process_door_timers`) -/

/-- Door state of one device: `_device_door_state.get(device, False)` and
`_door_open_since.get(device)`. -/
structure DoorSt where
  doorState : Bool
  openSince : Option ℚ
deriving DecidableEq

/-- `_process_door_timers` for one device.  `bit` is `door_to_bit`'s output
(`none` = sticky: fall back to the remembered door state), `now` is the
wall clock in seconds.  Returns the new state and whether the
"Door Open Too Long" alarm was emitted. -/
def door_step (s : DoorSt) (bit : Option ℤ) (now : ℚ) : DoorSt × Bool :=
  let b : ℤ := match bit with
    | none => if s.doorState then 1 else 0
    | some v => v
  let s1 : DoorSt := match bit with
    | none => s
    | some v => { s with doorState := decide (v ≠ 0) }
  if b = 1 then
    match s1.openSince with
    | none => ({ s1 with openSince := some now }, false)
    | some t0 =>
      if DOOR_OPEN_THRESHOLD_SEC ≤ now - t0 then ({ s1 with openSince := none }, true)
      else (s1, false)
  else ({ s1 with openSince := none }, false)

/-- The wall-clock times at which `_process_door_timers` emits the
"Door Open Too Long" alarm along a sequence of `(door bit, now)` samples. -/
def door_fires (s : DoorSt) : List (Option ℤ × ℚ) → List ℚ
  | [] => []
  | (bit, t) :: rest =>
    let r := door_step s bit t
    if r.2 then t :: door_fires r.1 rest else door_fires r.1 rest

/-! ## Floor mismatch (`_floor_mismatch` and the `check_alarm` glue) -/

/-- `_floor_mismatch(height, fi, boundaries)`; the `None` guards of the
source are vacuous at its only call site, which passes `float(h)` and
`int(fi)`.  Returns (mismatch?, deviation, floor center). -/
def floor_mismatch (height : ℚ) (fi : ℕ) (boundaries : List ℤ) : Bool × ℚ × ℚ :=
  if boundaries.length ≤ fi then (true, 0, 0)
  else
    let center : ℚ := ((boundaries.getD fi 0 : ℤ) : ℚ)
    let deviation := height - center
    (decide (TOLERANCE_MM < |deviation|), deviation, center)

/-- The floor-mismatch path of the `check_alarm` endpoint for one request:
parse the pack, derive height and floor index from the device's resolved
boundaries, read the door bit from the `door_val` field, and when the door
is open and `_floor_mismatch` reports a mismatch, emit the alarm whose
details carry `deviation_mm = round(abs(deviation), 1)` and
`position = "above"/"below"`. -/
def check_alarm_floor_mismatch (pack_raw : String) (boundaries : List ℤ) :
    Option (ℚ × String) :=
  let parsed := parse_pack_raw pack_raw
  let h := compute_height parsed boundaries
  let fi := floor_index h boundaries
  let door_bit := door_to_bit (assocGet "door_val" parsed)
  if door_bit = some 1 then
    let m := floor_mismatch h fi boundaries
    if m.1 then
      some (pyRound1 |m.2.1|, if 0 < m.2.1 then "above" else "below")
    else none
  else none

/-! ## Live counters aggregator (`lift-simulator/live_counters.py`) -/

/-- `LC_MOVEMENT_THRESHOLD_MM` (default 50). -/
def LC_MOVEMENT_THRESHOLD_MM : ℚ := 50

/-- One entry of `_state_inmem`: the per-device string dict
`{"ts", "floor", "h", "door"}`.  `h = none` encodes the stored `"nan"`
(read back through `float(...)` as NaN), `door = none` the stored `""`
(read back as `None`); every other stored value round-trips exactly. -/
structure LCDevState where
  ts : ℤ
  floor : String
  h : Option ℚ
  door : Option Bool
deriving DecidableEq

/-- The module state: `_inmem` (counter hashes, key -> field -> int) and
`_state_inmem` (per-device last-sample state). -/
structure LCState where
  counters : List (String × List (String × ℤ))
  devState : List (String × LCDevState)
deriving DecidableEq

/-- Write-through update of an association list: replace the binding of
`k` (feeding the old value to `f`), or append a fresh one. -/
def updAssoc {α : Type} (k : String) (f : Option α → α) :
    List (String × α) → List (String × α)
  | [] => [(k, f none)]
  | (k', v) :: rest =>
    if k' = k then (k, f (some v)) :: rest else (k', v) :: updAssoc k f rest

/-- `_hinc(store_key, field, delta)`. -/
def hinc (storeKey field : String) (delta : ℤ)
    (c : List (String × List (String × ℤ))) : List (String × List (String × ℤ)) :=
  updAssoc storeKey (fun h => updAssoc field (fun v => v.getD 0 + delta) (h.getD [])) c

/-- Civil date from days since the Unix epoch (proleptic Gregorian),
the arithmetic behind `time.gmtime`. -/
def civilFromDays (z0 : ℤ) : ℤ × ℤ × ℤ :=
  let z := z0 + 719468
  let era := Int.fdiv z 146097
  let doe := z - era * 146097
  let yoe := Int.fdiv (doe - Int.fdiv doe 1460 + Int.fdiv doe 36524 - Int.fdiv doe 146096) 365
  let y := yoe + era * 400
  let doy := doe - (365 * yoe + Int.fdiv yoe 4 - Int.fdiv yoe 100)
  let mp := Int.fdiv (5 * doy + 2) 153
  let d := doy - Int.fdiv (153 * mp + 2) 5 + 1
  let m := mp + (if mp < 10 then 3 else -9)
  (y + (if m ≤ 2 then 1 else 0), m, d)

def pad2 (n : ℤ) : String := if n < 10 then "0" ++ toString n else toString n

/-- `_local_date_str` with the default `LC_TZ = "UTC"`:
`time.strftime("%Y-%m-%d", time.gmtime(ts_ms / 1000.0))`. -/
def local_date_str (ts_ms : ℤ) : String :=
  let sec := Int.fdiv ts_ms 1000
  let ymd := civilFromDays (Int.fdiv sec 86400)
  toString ymd.1 ++ "-" ++ pad2 ymd.2.1 ++ "-" ++ pad2 ymd.2.2

/-- `_door_key(date_str, device_id)`. -/
def door_key (date dev : String) : String := "lc:" ++ date ++ ":" ++ dev ++ ":door"

/-- `_idle_key(date_str, device_id)`. -/
def idle_key (date dev : String) : String := "lc:" ++ date ++ ":" ++ dev ++ ":idle_ms"

/-- `_movement(prev_h, h, thr)`; `none` heights are the NaN cases. -/
def lcMovement (prev h : Option ℚ) (thr : ℚ) : Bool :=
  match prev, h with
  | some p, some x => decide (thr < |x - p|)
  | _, _ => false

/-- Python `a or b` for strings with an `Option` left operand:
`None` and `""` are falsy. -/
def pyStrOr (a : Option String) (b : String) : String :=
  match a with
  | some x => if x = "" then b else x
  | none => b

/-- `process_pack_out_sample` (with the default `LC_ENABLED = true`),
parameterised by the triple `(fl, h, dopen)` that `_parse_pack_out`
extracted from the `pack_out` string — the claims hold for every parse
result, hence for every input string.  Mirrors the source line by line:
the nothing-useful early return, the per-device state read, the ordering
guard, the rising-edge door counter, the movement-gated idle accumulation,
and the unconditional state write. -/
def process_pack_out_sample (s : LCState) (device_id : String) (ts_ms : ℤ)
    (fl : Option String) (h : Option ℚ) (dopen : Option Bool) : LCState :=
  if fl = none ∧ h = none ∧ dopen = none then s
  else
    let st := assocGet device_id s.devState
    let last_ts : ℤ := (st.map LCDevState.ts).getD 0
    let last_floor : Option String := st.map LCDevState.floor
    let last_h : Option ℚ := st.bind LCDevState.h
    let last_door : Option Bool := st.bind LCDevState.door
    if ts_ms ≤ last_ts then s
    else
      let date_str := local_date_str ts_ms
      let floor_for_bucket := pyStrOr fl (pyStrOr last_floor "UNKNOWN")
      let c1 :=
        if last_door = some false ∧ dopen = some true then
          hinc (door_key date_str device_id) floor_for_bucket 1 s.counters
        else s.counters
      let c2 :=
        if lcMovement last_h h LC_MOVEMENT_THRESHOLD_MM then c1
        else
          let dt := ts_ms - last_ts
          if 0 < dt ∧ 0 < last_ts then hinc (idle_key date_str device_id) floor_for_bucket dt c1
          else c1
      let newDoor : Option Bool :=
        match dopen with
        | some b => some b
        | none => last_door
      { counters := c2,
        devState := updAssoc device_id
          (fun _ => ⟨ts_ms, floor_for_bucket, h, newDoor⟩) s.devState }

/-! ## Helper lemmas -/

theorem bucket_check_match_fire {a : Bucket} {rest : List Bucket} {h : ℚ}
    (hm : |a.center - h| ≤ BUCKET_HALF_MM) (h3 : 3 ≤ a.count + 1) :
    bucket_check (a :: rest) h = (rest, true) := by
  simp [bucket_check, hm, h3]

theorem bucket_check_match_inc {a : Bucket} {rest : List Bucket} {h : ℚ}
    (hm : |a.center - h| ≤ BUCKET_HALF_MM) (h3 : ¬ 3 ≤ a.count + 1) :
    bucket_check (a :: rest) h = ({ center := a.center, count := a.count + 1 } :: rest, false) := by
  simp [bucket_check, hm, h3]

theorem bucket_check_skip {a : Bucket} {rest : List Bucket} {h : ℚ}
    (hm : ¬ |a.center - h| ≤ BUCKET_HALF_MM) :
    bucket_check (a :: rest) h = (a :: (bucket_check rest h).1, (bucket_check rest h).2) := by
  simp [bucket_check, hm]

theorem bucket_check_counts (st : List Bucket) (h : ℚ)
    (H : ∀ b ∈ st, b.count = 1 ∨ b.count = 2) :
    ∀ b ∈ (bucket_check st h).1, b.count = 1 ∨ b.count = 2 := by
  induction st with
  | nil =>
    intro b hb
    simp only [bucket_check, List.mem_singleton] at hb
    subst hb
    exact Or.inl rfl
  | cons a rest ih =>
    intro b hb
    by_cases hm : |a.center - h| ≤ BUCKET_HALF_MM
    · by_cases h3 : (3 : ℤ) ≤ a.count + 1
      · rw [bucket_check_match_fire hm h3] at hb
        exact H b (List.mem_cons_of_mem a hb)
      · rw [bucket_check_match_inc hm h3] at hb
        rcases List.mem_cons.mp hb with rfl | hb2
        · rcases H a (List.mem_cons_self a rest) with h1 | h2
          · exact Or.inr (by simp [h1])
          · exact absurd (by omega : (3 : ℤ) ≤ a.count + 1) h3
        · exact H b (List.mem_cons_of_mem a hb2)
    · rw [bucket_check_skip hm] at hb
      rcases List.mem_cons.mp hb with rfl | hb2
      · exact H _ (List.mem_cons_self _ _)
      · exact ih (fun x hx => H x (List.mem_cons_of_mem a hx)) b hb2

theorem bucket_fold_counts (hs : List ℚ) :
    ∀ st : List Bucket, (∀ b ∈ st, b.count = 1 ∨ b.count = 2) →
      ∀ b ∈ hs.foldl (fun st h => (bucket_check st h).1) st, b.count = 1 ∨ b.count = 2 := by
  induction hs with
  | nil => intro st H b hb; exact H b hb
  | cons h rest ih =>
    intro st H
    exact ih _ (bucket_check_counts st h H)

theorem floorScan_le (h : ℚ) :
    ∀ (bs : List ℤ) (i : ℕ), floorScan h bs = some i → i + 2 ≤ bs.length
  | [], i, hi => by simp [floorScan] at hi
  | [a], i, hi => by simp [floorScan] at hi
  | a :: b :: rest, i, hi => by
    by_cases hc : (a : ℚ) ≤ h ∧ h < (b : ℚ)
    · rw [floorScan, if_pos hc] at hi
      obtain rfl : (0 : ℕ) = i := Option.some.inj hi
      simp [List.length_cons]
    · rw [floorScan, if_neg hc] at hi
      obtain ⟨j, hj, rfl⟩ := Option.map_eq_some'.mp hi
      have := floorScan_le h (b :: rest) j hj
      simp only [List.length_cons] at this ⊢
      omega

theorem floor_index_range (h : ℚ) (bs : List ℤ) (hlen : 2 ≤ bs.length) :
    floor_index h bs ≤ bs.length - 2 := by
  unfold floor_index
  rw [if_neg (by omega)]
  cases hscan : floorScan h bs with
  | none => simp
  | some i =>
    have := floorScan_le h bs i hscan
    simp only [Option.getD_some]
    omega

theorem floor_index_pair (h : ℚ) (a b : ℤ) : floor_index h [a, b] = 0 := by
  by_cases hc : (a : ℚ) ≤ h ∧ h < (b : ℚ) <;>
    simp [floor_index, floorScan, hc]

theorem floor_index_match (h : ℚ) (a b : ℤ) (rest : List ℤ)
    (hc : (a : ℚ) ≤ h ∧ h < (b : ℚ)) :
    floor_index h (a :: b :: rest) = 0 := by
  unfold floor_index
  rw [if_neg (by simp [List.length_cons])]
  rw [floorScan, if_pos hc]
  rfl

theorem floor_index_skip (h : ℚ) (a b c : ℤ) (rest : List ℤ)
    (hc : ¬ ((a : ℚ) ≤ h ∧ h < (b : ℚ))) :
    floor_index h (a :: b :: c :: rest) = floor_index h (b :: c :: rest) + 1 := by
  unfold floor_index
  rw [if_neg (by simp [List.length_cons]), if_neg (by simp [List.length_cons])]
  rw [floorScan, if_neg hc]
  cases hscan : floorScan h (b :: c :: rest) with
  | none => simp [hscan, List.length_cons]
  | some j => simp [hscan]

theorem floor_index_mono (h1 h2 : ℚ) (hle : h1 ≤ h2) :
    ∀ bs : List ℤ, (∀ x, bs.head? = some x → (x : ℚ) ≤ h1) →
      floor_index h1 bs ≤ floor_index h2 bs
  | [], _ => le_refl _
  | [a], _ => le_refl _
  | [a, b], _ => by rw [floor_index_pair, floor_index_pair]
  | a :: b :: c :: rest, hhead => by
    by_cases hc : (a : ℚ) ≤ h1 ∧ h1 < (b : ℚ)
    · rw [floor_index_match h1 a b (c :: rest) hc]
      exact Nat.zero_le _
    · have ha1 : (a : ℚ) ≤ h1 := hhead a rfl
      have hb1 : (b : ℚ) ≤ h1 := by
        by_contra hnb
        exact hc ⟨ha1, lt_of_not_le hnb⟩
      have hc2 : ¬ ((a : ℚ) ≤ h2 ∧ h2 < (b : ℚ)) := by
        rintro ⟨-, hlt⟩
        exact absurd ((hb1.trans hle).trans_lt hlt) (lt_irrefl _)
      rw [floor_index_skip h1 a b c rest hc, floor_index_skip h2 a b c rest hc2]
      have hhead' : ∀ x, (b :: c :: rest).head? = some x → (x : ℚ) ≤ h1 := by
        intro x hx
        obtain rfl : b = x := Option.some.inj hx
        exact hb1
      exact Nat.succ_le_succ (floor_index_mono h1 h2 hle (b :: c :: rest) hhead')

theorem door_step_cases (s : DoorSt) (bit : Option ℤ) (now : ℚ) :
    ((door_step s bit now).2 = true
      ∧ (door_step s bit now).1.openSince = none
      ∧ ∃ t0, s.openSince = some t0 ∧ t0 + DOOR_OPEN_THRESHOLD_SEC ≤ now)
  ∨ ((door_step s bit now).2 = false
      ∧ ((door_step s bit now).1.openSince = none
        ∨ (door_step s bit now).1.openSince = some now
        ∨ (door_step s bit now).1.openSince = s.openSince)) := by
  unfold door_step
  cases bit with
  | none =>
    cases hds : s.doorState with
    | false => simp [hds]
    | true =>
      cases hos : s.openSince with
      | none => simp [hds, hos]
      | some t0 =>
        by_cases hdur : DOOR_OPEN_THRESHOLD_SEC ≤ now - t0
        · refine Or.inl ?_
          simp [hds, hos, hdur]
          linarith
        · refine Or.inr ?_
          simp [hds, hos, hdur]
  | some v =>
    by_cases hv : v = 1
    · subst hv
      cases hos : s.openSince with
      | none => simp [hos]
      | some t0 =>
        by_cases hdur : DOOR_OPEN_THRESHOLD_SEC ≤ now - t0
        · refine Or.inl ?_
          simp [hos, hdur]
          linarith
        · refine Or.inr ?_
          simp [hos, hdur]
    · refine Or.inr ?_
      simp [hv]

theorem door_fires_gap_aux :
    ∀ (samples : List (Option ℤ × ℚ)) (s : DoorSt) (c : ℚ),
      List.Pairwise (· < ·) (samples.map Prod.snd) →
      (∀ p ∈ samples, c < p.2) →
      (∀ t0, s.openSince = some t0 → c ≤ t0) →
      List.Pairwise (fun a b => a + DOOR_OPEN_THRESHOLD_SEC ≤ b)
        (c :: door_fires s samples)
  | [], s, c, _, _, _ => by simp [door_fires]
  | (bit, t) :: rest, s, c, hpw, hlb, hos => by
    have hDpos : (0 : ℚ) ≤ DOOR_OPEN_THRESHOLD_SEC := by
      norm_num [DOOR_OPEN_THRESHOLD_SEC]
    rw [List.map_cons] at hpw
    have hpc := List.pairwise_cons.mp hpw
    have hpw' : List.Pairwise (· < ·) (rest.map Prod.snd) := hpc.2
    have hlbt : ∀ p ∈ rest, t < p.2 := by
      intro p hp
      exact hpc.1 p.2 (List.mem_map_of_mem Prod.snd hp)
    rcases door_step_cases s bit t with ⟨hf, hnone, t0, hossome, hgap⟩ | ⟨hf, hcase⟩
    · have hrec := door_fires_gap_aux rest (door_step s bit t).1 t hpw' hlbt
        (by intro u hu; rw [hnone] at hu; cases hu)
      have hct0 := hos t0 hossome
      simp only [door_fires, hf, if_true]
      refine List.pairwise_cons.mpr ⟨?_, hrec⟩
      intro b hb
      rcases List.mem_cons.mp hb with rfl | hb2
      · linarith
      · have h1 : t + DOOR_OPEN_THRESHOLD_SEC ≤ b := (List.pairwise_cons.mp hrec).1 b hb2
        linarith
    · have hrec := door_fires_gap_aux rest (door_step s bit t).1 c hpw'
        (fun p hp => hlb p (List.mem_cons_of_mem _ hp))
        (by
          intro u hu
          rcases hcase with hn | hnow | hsame
          · rw [hn] at hu; cases hu
          · rw [hnow] at hu
            obtain rfl : t = u := Option.some.inj hu
            exact le_of_lt (hlb (bit, t) (List.mem_cons_self _ _))
          · rw [hsame] at hu
            exact hos u hu)
      simpa only [door_fires, hf, if_false, Bool.false_eq_true] using hrec

theorem optOr_none {α : Type} (x : Option α) : optOr x none = x := by
  cases x <;> rfl

theorem assocGet_dictInsert (k k' : String) (v : PackValue)
    (d : List (String × PackValue)) :
    assocGet k (dictInsert k' v d) = if k' = k then some v else assocGet k d := by
  induction d with
  | nil => by_cases h : k' = k <;> simp [dictInsert, assocGet, h]
  | cons p rest ih =>
    obtain ⟨k0, v0⟩ := p
    by_cases h0 : k0 = k'
    · subst h0
      by_cases hk : k0 = k <;> simp [dictInsert, assocGet, hk]
    · by_cases hk : k' = k
      · subst hk
        have h0k : k0 ≠ k' := h0
        simp [dictInsert, assocGet, h0k, ih]
      · by_cases h0k : k0 = k <;>
          simp [dictInsert, assocGet, h0, h0k, ih, hk, Ne.symm hk]

theorem parseSegs_lookup (k : String) :
    ∀ (segs : List String) (acc : List (String × PackValue)),
      assocGet k (List.foldl parseSegStep acc segs)
        = optOr (lastKeptValue segs k) (assocGet k acc)
  | [], acc => by simp [lastKeptValue, optOr]
  | pair :: rest, acc => by
    rw [List.foldl_cons]
    cases hkv : segKV pair with
    | none =>
      rw [show parseSegStep acc pair = acc by simp [parseSegStep, hkv]]
      rw [parseSegs_lookup k rest acc]
      simp [lastKeptValue, hkv]
    | some kv =>
      obtain ⟨k1, v1⟩ := kv
      rw [show parseSegStep acc pair = dictInsert k1 (coerce_value k1 v1) acc by
        simp [parseSegStep, hkv]]
      rw [parseSegs_lookup k rest _]
      rw [assocGet_dictInsert]
      simp only [lastKeptValue, hkv]
      cases hl : lastKeptValue rest k with
      | some w => simp [optOr]
      | none => by_cases hk : k1 = k <;> simp [optOr, hk]

theorem parseSegs_drop (pair : String) (hkv : segKV pair = none) :
    ∀ (pre post : List String) (acc : List (String × PackValue)),
      List.foldl parseSegStep acc (pre ++ pair :: post)
        = List.foldl parseSegStep acc (pre ++ post)
  | [], post, acc => by
    simp only [List.nil_append, List.foldl_cons]
    rw [show parseSegStep acc pair = acc by simp [parseSegStep, hkv]]
  | q :: pre, post, acc => by
    simp only [List.cons_append, List.foldl_cons]
    exact parseSegs_drop pair hkv pre post _

theorem assocGet_updAssoc {α : Type} (k : String) (f : Option α → α) :
    ∀ l : List (String × α), assocGet k (updAssoc k f l) = some (f (assocGet k l))
  | [] => by simp [updAssoc, assocGet]
  | (k0, v0) :: rest => by
    by_cases h0 : k0 = k
    · subst h0
      simp [updAssoc, assocGet]
    · simp [updAssoc, assocGet, h0, assocGet_updAssoc k f rest]

/-- The ordering guard: a sample at or before the device's last-seen
timestamp (`int(state.get("ts", "0") or "0")`) leaves the whole module
state untouched. -/
theorem process_guard_noop (s : LCState) (device : String) (ts : ℤ)
    (fl : Option String) (h : Option ℚ) (dopen : Option Bool)
    (hts : ts ≤ ((assocGet device s.devState).map LCDevState.ts).getD 0) :
    process_pack_out_sample s device ts fl h dopen = s := by
  unfold process_pack_out_sample
  by_cases hall : fl = none ∧ h = none ∧ dopen = none
  · rw [if_pos hall]
  · rw [if_neg hall]
    dsimp only
    rw [if_pos hts]

theorem process_result_get (s : LCState) (device : String) (ts : ℤ)
    (fl : Option String) (h : Option ℚ) (dopen : Option Bool)
    (hall : ¬ (fl = none ∧ h = none ∧ dopen = none))
    (hgt : ¬ ts ≤ ((assocGet device s.devState).map LCDevState.ts).getD 0) :
    (assocGet device
        (process_pack_out_sample s device ts fl h dopen).devState).map LCDevState.ts
      = some ts := by
  unfold process_pack_out_sample
  rw [if_neg hall]
  dsimp only
  rw [if_neg hgt]
  dsimp only
  rw [assocGet_updAssoc]
  rfl

/-! ## Claims -/

/-- C5: starting from a fresh device/metric bucket state, three successive
over-threshold samples whose heights all lie within 50 mm of the first
sample (the first bucket's center) fire the alarm exactly on the third
sample, which also removes the bucket; a fourth matching sample then opens
a fresh bucket with count 1 and fires nothing. -/
theorem c5_bucket_three_hit_reset (h1 h2 h3 h4 : ℚ)
    (H2 : |h2 - h1| ≤ BUCKET_HALF_MM) (H3 : |h3 - h1| ≤ BUCKET_HALF_MM)
    (H4 : |h4 - h1| ≤ BUCKET_HALF_MM) :
    bucket_check [] h1 = ([⟨h1, 1⟩], false)
  ∧ bucket_check [⟨h1, 1⟩] h2 = ([⟨h1, 2⟩], false)
  ∧ bucket_check [⟨h1, 2⟩] h3 = ([], true)
  ∧ bucket_check [] h4 = ([⟨h4, 1⟩], false) := by
  have e2 : |(Bucket.mk h1 1).center - h2| ≤ BUCKET_HALF_MM := by
    simpa [abs_sub_comm] using H2
  have e3 : |(Bucket.mk h1 2).center - h3| ≤ BUCKET_HALF_MM := by
    simpa [abs_sub_comm] using H3
  refine ⟨rfl, ?_, ?_, rfl⟩
  · rw [bucket_check_match_inc e2 (by norm_num)]
    norm_num
  · rw [bucket_check_match_fire e3 (by norm_num)]

theorem c5_bucket_three_hit_reset_witness :
    bucket_check [] 1000 = ([⟨1000, 1⟩], false)
  ∧ bucket_check [⟨1000, 1⟩] 1010 = ([⟨1000, 2⟩], false)
  ∧ bucket_check [⟨1000, 2⟩] 990 = ([], true)
  ∧ bucket_check [] 1000 = ([⟨1000, 1⟩], false) :=
  c5_bucket_three_hit_reset 1000 1010 990 1000
    (by norm_num [BUCKET_HALF_MM]) (by norm_num [BUCKET_HALF_MM])
    (by norm_num [BUCKET_HALF_MM])

/-- C9: every bucket list reachable by `_bucket_check_and_trigger` from the
empty state of a fresh device/metric only ever stores hit counts 1 or 2:
reaching count 3 fires the alarm and removes the bucket within the same
call, so a stored count of 3 or more is never observable. -/
theorem c9_bucket_counts_invariant :
    ∀ (hs : List ℚ), ∀ b ∈ bucket_run hs, b.count = 1 ∨ b.count = 2 :=
  fun hs => bucket_fold_counts hs [] (by simp)

theorem c9_bucket_counts_invariant_witness :
    (Bucket.mk 0 1).count = 1 ∨ (Bucket.mk 0 1).count = 2 :=
  c9_bucket_counts_invariant [0] ⟨0, 1⟩ (by decide)

/-- C7: `_derive_motion` returns `(S, I, 0)` on the first observation of a
device, recording the height as baseline; afterwards, with
`velocity = h - prev`, it returns `(U, M)` above the +20 mm deadband,
`(D, M)` below -20 mm, `(S, I)` inside the deadband, and always stores the
new height. -/
theorem c7_derive_motion_spec (h p : ℚ) :
    derive_motion none h = (("S", "I", 0), some h)
  ∧ (MOVEMENT_DEADBAND_MM < h - p →
      derive_motion (some p) h = (("U", "M", h - p), some h))
  ∧ (h - p < -MOVEMENT_DEADBAND_MM →
      derive_motion (some p) h = (("D", "M", h - p), some h))
  ∧ (-MOVEMENT_DEADBAND_MM ≤ h - p → h - p ≤ MOVEMENT_DEADBAND_MM →
      derive_motion (some p) h = (("S", "I", h - p), some h)) := by
  have hd : MOVEMENT_DEADBAND_MM = 20 := rfl
  refine ⟨rfl, ?_, ?_, ?_⟩
  · intro hv
    simp [derive_motion, hv]
  · intro hv
    have h1 : ¬ MOVEMENT_DEADBAND_MM < h - p := by rw [hd] at *; linarith
    simp [derive_motion, h1, hv]
  · intro hv1 hv2
    have h1 : ¬ MOVEMENT_DEADBAND_MM < h - p := not_lt.mpr hv2
    have h2 : ¬ h - p < -MOVEMENT_DEADBAND_MM := not_lt.mpr hv1
    simp [derive_motion, h1, h2]

theorem c7_derive_motion_spec_witness :
    derive_motion none (500 : ℚ) = (("S", "I", 0), some 500)
  ∧ derive_motion (some 100) (500 : ℚ) = (("U", "M", 400), some 500) := by
  refine ⟨(c7_derive_motion_spec 500 100).1, ?_⟩
  have h400 : (500 : ℚ) - 100 = 400 := by norm_num
  have := (c7_derive_motion_spec 500 100).2.1 (by rw [h400]; norm_num [MOVEMENT_DEADBAND_MM])
  rwa [h400] at this

/-- C4: the claim that any fetched configuration with fewer than 2
boundaries (including exactly one) falls back to the default ladder is
refuted by a single supplied boundary: `floor_boundaries = "5000"` parses
to the one-element list `[5000]`, which is non-empty, so the
`if not boundaries` fallback is skipped and the resolved list stays
`[5000]`, not the 7-point default. -/
theorem c4_counterexample :
    parse_floor_boundaries (some "5000") = [5000]
  ∧ resolve_boundaries (some "5000") = [5000]
  ∧ resolve_boundaries (some "5000") ≠ DEFAULT_BOUNDARIES := by decide

/-- C4 (amended): the fallback to the 7-point default ladder
`[0, 3000, ..., 18000]` happens exactly when the parsed boundary list is
empty (no valid integer entries at all); any non-empty parse — including a
single boundary — is kept as-is. -/
theorem c4_amended_default_iff_empty (fb_raw : Option String) :
    (parse_floor_boundaries fb_raw = [] →
      resolve_boundaries fb_raw = DEFAULT_BOUNDARIES)
  ∧ (parse_floor_boundaries fb_raw ≠ [] →
      resolve_boundaries fb_raw = parse_floor_boundaries fb_raw) := by
  unfold resolve_boundaries
  constructor
  · intro h; simp [h]
  · intro h; simp [h]

theorem c4_amended_default_iff_empty_witness :
    resolve_boundaries none = DEFAULT_BOUNDARIES
  ∧ resolve_boundaries (some "5000") = parse_floor_boundaries (some "5000") :=
  ⟨(c4_amended_default_iff_empty none).1 (by decide),
   (c4_amended_default_iff_empty (some "5000")).2 (by decide)⟩

/-- C2: the claim is refuted on its own concrete input: for the pack
`"h=4025|door=OPEN"` the `check_alarm` path reads the door bit from the
`door_val` field, which is absent, so `door_to_bit` yields `None`, the
`door_bit == 1` gate fails and no floor-mismatch alarm is emitted at all. -/
theorem c2_counterexample :
    check_alarm_floor_mismatch "h=4025|door=OPEN" [0, 3000, 6000, 9000] = none := by
  decide

/-- C2 (amended): the door bit of the check-alarm path comes from the
`door_val` field; with the door reported open there — pack
`"h=4025|door_val=OPEN"` — and boundaries `[0, 3000, 6000, 9000]`, the
floor-mismatch alarm is emitted with `deviation_mm = 1025.0` and
`position = "above"`, while the claim's pack `"h=4025|door=OPEN"` emits
none. -/
theorem c2_amended_door_val_mismatch :
    check_alarm_floor_mismatch "h=4025|door_val=OPEN" [0, 3000, 6000, 9000]
      = some (1025, "above") := by
  have hp : parse_pack_raw "h=4025|door_val=OPEN"
      = [("h", PackValue.float 4025), ("door_val", PackValue.str "OPEN")] := by decide
  have ha : assocGet "door_val"
      [("h", PackValue.float 4025), ("door_val", PackValue.str "OPEN")]
      = some (PackValue.str "OPEN") := by decide
  have hd : door_to_bit (some (PackValue.str "OPEN")) = some 1 := by decide
  have hh : compute_height
      [("h", PackValue.float 4025), ("door_val", PackValue.str "OPEN")]
      [0, 3000, 6000, 9000] = 4025 := by decide
  have hfi : floor_index 4025 [0, 3000, 6000, 9000] = 1 := by decide
  have hm : floor_mismatch 4025 1 [0, 3000, 6000, 9000] = (true, 1025, 3000) := by
    norm_num [floor_mismatch, TOLERANCE_MM]
  have hr : pyRound1 (1025 : ℚ) = 1025 := by
    norm_num [pyRound1, halfEvenRound]
  simp only [check_alarm_floor_mismatch, hp, ha, hd, hh, hfi, hm]
  norm_num [hr]

/-- C3: universal monotonicity of `_floor_index` in the height is refuted:
for the sorted boundaries `[0, 3000, 6000]`, a height below the first
boundary matches no interval, so the loop falls through to the top index
`len - 2 = 1`, while a height inside the first zone yields `0`; hence
`-5 ≤ 100` but `floor_index (-5) = 1 > 0 = floor_index 100`. -/
theorem c3_counterexample :
    (-5 : ℚ) ≤ 100
  ∧ floor_index (-5) [0, 3000, 6000] = 1
  ∧ floor_index 100 [0, 3000, 6000] = 0 := by decide

/-- C3 (amended): `_floor_index` is monotonically non-decreasing in the
height whenever the smaller height is not below the first boundary (for
heights below every boundary the loop falls through and returns the top
index `len - 2`, breaking monotonicity); the range part holds as stated:
for every boundaries list of length ≥ 2 the result lies in
`[0, len(boundaries) - 2]`. -/
theorem c3_amended_mono_and_range (bs : List ℤ) (h1 h2 : ℚ)
    (hhead : ∀ x, bs.head? = some x → (x : ℚ) ≤ h1) (hle : h1 ≤ h2) :
    floor_index h1 bs ≤ floor_index h2 bs
  ∧ ∀ (h : ℚ), 2 ≤ bs.length → floor_index h bs ≤ bs.length - 2 :=
  ⟨floor_index_mono h1 h2 hle bs hhead,
   fun h hlen => floor_index_range h bs hlen⟩

theorem c3_amended_mono_and_range_witness :
    (floor_index 2500 [0, 3000, 6000] ≤ floor_index 3500 [0, 3000, 6000])
  ∧ floor_index 9999 [0, 3000, 6000] ≤ ([0, 3000, 6000] : List ℤ).length - 2 :=
  ⟨(c3_amended_mono_and_range [0, 3000, 6000] 2500 3500
      (by intro x hx; obtain rfl : (0 : ℤ) = x := Option.some.inj hx; norm_num)
      (by norm_num)).1,
   (c3_amended_mono_and_range [0, 3000, 6000] 2500 3500
      (by intro x hx; obtain rfl : (0 : ℤ) = x := Option.some.inj hx; norm_num)
      (by norm_num)).2 9999 (by norm_num)⟩

/-- C1: the claim that "Door Open Too Long" fires at most once per open
interval is refuted by a door held open and sampled at t = 0, 20, 40, 60 s:
the alarm fires at t = 20 (duration 20 ≥ 15), which clears `open_since`;
the t = 40 sample then re-records `open_since`, and the alarm fires again
at t = 60 — a second emission with the door continuously open and never
closed in between. -/
theorem c1_counterexample :
    door_fires ⟨false, none⟩
      [(some 1, 0), (some 1, 20), (some 1, 40), (some 1, 60)] = [20, 60] := by
  norm_num [door_fires, door_step, DOOR_OPEN_THRESHOLD_SEC]

/-- C1 (amended): after the alarm fires, `open_since` is cleared and the
next sample with the door still open re-records it, so the alarm re-fires
after every further ≥ 15 s of continuously-sampled open door rather than
waiting for a close/reopen; what does hold is the 15-second spacing: along
any strictly time-increasing sample sequence for a fresh device,
consecutive "Door Open Too Long" emissions are at least
`DOOR_OPEN_THRESHOLD_SEC = 15` seconds apart. -/
theorem c1_amended_refire_min_gap (samples : List (Option ℤ × ℚ))
    (hpw : List.Pairwise (· < ·) (samples.map Prod.snd)) :
    List.Pairwise (fun a b => a + DOOR_OPEN_THRESHOLD_SEC ≤ b)
      (door_fires ⟨false, none⟩ samples) := by
  cases samples with
  | nil => simp [door_fires]
  | cons p rest =>
    rw [List.map_cons] at hpw
    have hpc := List.pairwise_cons.mp hpw
    have h := door_fires_gap_aux (p :: rest) ⟨false, none⟩ (p.2 - 1)
      (by rw [List.map_cons]; exact hpw)
      (by
        intro q hq
        rcases List.mem_cons.mp hq with rfl | hq2
        · linarith
        · have hlt : p.2 < q.2 := hpc.1 q.2 (List.mem_map_of_mem Prod.snd hq2)
          linarith)
      (by intro t0 h0; cases h0)
    exact h.of_cons

theorem c1_amended_refire_min_gap_witness :
    List.Pairwise (fun a b => a + DOOR_OPEN_THRESHOLD_SEC ≤ b)
      (door_fires ⟨false, none⟩ [(some 1, 0), (some 1, 20)]) :=
  c1_amended_refire_min_gap [(some 1, 0), (some 1, 20)] (by norm_num)

/-- C8: pack parsing is a total function (the Lean embedding returns a
mapping for every input string by construction) satisfying, for every
input string and key: the resulting binding of each key is the coerced
value of the LAST kept segment carrying it (duplicates: last wins);
segments that `segKV` rejects — no `=` anywhere, or an empty key after
stripping — contribute nothing to the parse; and a kept key with an empty
(stripped) value is bound to null. -/
theorem c8_parse_total_drop_last_wins (s k : String) :
    assocGet k (parse_pack_raw s) = lastKeptValue (pySplit '|' s) k
  ∧ (∀ pre post pair, segKV pair = none →
      parseSegs (pre ++ pair :: post) = parseSegs (pre ++ post))
  ∧ (∀ pair key, segKV pair = some (key, "") →
      coerce_value key "" = PackValue.null) := by
  refine ⟨?_, ?_, ?_⟩
  · unfold parse_pack_raw
    by_cases hs : s = ""
    · subst hs
      rw [if_pos rfl]
      have h1 : pySplit '|' "" = [""] := by decide
      rw [h1]
      simp only [lastKeptValue, show segKV "" = none from by decide, assocGet]
    · rw [if_neg hs]
      unfold parseSegs
      rw [parseSegs_lookup k (pySplit '|' s) []]
      simp [assocGet, optOr_none]
  · intro pre post pair hkv
    unfold parseSegs
    exact parseSegs_drop pair hkv pre post []
  · intro pair key hkv
    simp [coerce_value]

theorem c8_parse_total_drop_last_wins_witness :
    assocGet "a" (parse_pack_raw "a=1|junk|a=2") = lastKeptValue (pySplit '|' "a=1|junk|a=2") "a"
  ∧ parseSegs (["a=1"] ++ "junk" :: ["a=2"]) = parseSegs (["a=1"] ++ ["a=2"])
  ∧ coerce_value "x" "" = PackValue.null :=
  ⟨(c8_parse_total_drop_last_wins "a=1|junk|a=2" "a").1,
   (c8_parse_total_drop_last_wins "a=1|junk|a=2" "a").2.1 ["a=1"] ["a=2"] "junk" (by decide),
   (c8_parse_total_drop_last_wins "a=1|junk|a=2" "a").2.2 "x=" "x" (by decide)⟩

/-- C6: the live-counter `process_pack_out_sample` with a timestamp at or
below the device's last seen timestamp (`int(state.get("ts","0") or "0")`,
0 for a fresh device) returns the state completely unchanged — counters
and per-device state alike; consequently repeating a call with the same
arguments is idempotent (the second call is a no-op). -/
theorem c6_lc_guard_noop_idempotent (s : LCState) (device : String) (ts : ℤ)
    (fl : Option String) (h : Option ℚ) (dopen : Option Bool) :
    (ts ≤ ((assocGet device s.devState).map LCDevState.ts).getD 0 →
      process_pack_out_sample s device ts fl h dopen = s)
  ∧ process_pack_out_sample
      (process_pack_out_sample s device ts fl h dopen) device ts fl h dopen
        = process_pack_out_sample s device ts fl h dopen := by
  refine ⟨fun hts => process_guard_noop s device ts fl h dopen hts, ?_⟩
  by_cases hall : fl = none ∧ h = none ∧ dopen = none
  · have e : process_pack_out_sample s device ts fl h dopen = s := by
      unfold process_pack_out_sample
      rw [if_pos hall]
    simp only [e]
  · by_cases hts : ts ≤ ((assocGet device s.devState).map LCDevState.ts).getD 0
    · have e := process_guard_noop s device ts fl h dopen hts
      simp only [e]
    · apply process_guard_noop
      rw [process_result_get s device ts fl h dopen hall hts]
      exact le_refl ts

theorem c6_lc_guard_noop_idempotent_witness :
    process_pack_out_sample ⟨[], [("d", ⟨5, "0", none, none⟩)]⟩ "d" 5
        (some "1") none none
      = (⟨[], [("d", ⟨5, "0", none, none⟩)]⟩ : LCState)
  ∧ process_pack_out_sample
      (process_pack_out_sample ⟨[], [("d", ⟨5, "0", none, none⟩)]⟩ "d" 5
        (some "1") none none) "d" 5 (some "1") none none
      = process_pack_out_sample ⟨[], [("d", ⟨5, "0", none, none⟩)]⟩ "d" 5
        (some "1") none none :=
  ⟨(c6_lc_guard_noop_idempotent ⟨[], [("d", ⟨5, "0", none, none⟩)]⟩ "d" 5
      (some "1") none none).1 (by decide),
   (c6_lc_guard_noop_idempotent ⟨[], [("d", ⟨5, "0", none, none⟩)]⟩ "d" 5
      (some "1") none none).2⟩

/-- C10: the very first processed sample of a device (no per-device state
stored yet) never touches the counter hashes — the door-open rising edge
requires a remembered previous CLOSED state and the idle accumulation
requires a positive previous timestamp, both absent — and, when it passes
the `ts_ms > 0` guard and carries something useful, it only records the
device's state (timestamp, floor bucket, height, door bit) for later edge
detection. -/
theorem c10_first_sample_only_records (s : LCState) (device : String) (ts : ℤ)
    (fl : Option String) (h : Option ℚ) (dopen : Option Bool)
    (hfresh : assocGet device s.devState = none) :
    (process_pack_out_sample s device ts fl h dopen).counters = s.counters
  ∧ (0 < ts → ¬ (fl = none ∧ h = none ∧ dopen = none) →
      (process_pack_out_sample s device ts fl h dopen).devState
        = updAssoc device (fun _ => ⟨ts, pyStrOr fl "UNKNOWN", h, dopen⟩)
            s.devState) := by
  have hdoor : (match dopen with
      | some b => some b
      | none => (none : Option Bool)) = dopen := by
    cases dopen <;> rfl
  constructor
  · unfold process_pack_out_sample
    by_cases hall : fl = none ∧ h = none ∧ dopen = none
    · rw [if_pos hall]
    · rw [if_neg hall]
      dsimp only
      rw [hfresh]
      by_cases hts : ts ≤ ((none : Option LCDevState).map LCDevState.ts).getD 0
      · rw [if_pos hts]
      · rw [if_neg hts]
        simp [lcMovement]
  · intro hts0 hall
    unfold process_pack_out_sample
    rw [if_neg hall]
    dsimp only
    rw [hfresh]
    rw [if_neg (by simpa using not_le.mpr hts0)]
    show updAssoc device _ s.devState = updAssoc device _ s.devState
    refine congrArg (fun f => updAssoc device f s.devState) ?_
    funext x
    cases dopen <;> rfl

theorem c10_first_sample_only_records_witness :
    (process_pack_out_sample ⟨[], []⟩ "d" 7 (some "G") (some 100) (some true)).counters
      = (⟨[], []⟩ : LCState).counters
  ∧ (process_pack_out_sample ⟨[], []⟩ "d" 7 (some "G") (some 100) (some true)).devState
      = updAssoc "d" (fun _ => ⟨7, pyStrOr (some "G") "UNKNOWN", some 100, some true⟩)
          ([] : List (String × LCDevState)) :=
  ⟨(c10_first_sample_only_records ⟨[], []⟩ "d" 7 (some "G") (some 100) (some true)
      (by decide)).1,
   (c10_first_sample_only_records ⟨[], []⟩ "d" 7 (some "G") (some 100) (some true)
      (by decide)).2 (by decide) (by decide)⟩

end TbApi
